import Mathlib

/-!
Verification of the tesseract process-orchestration pipeline
(`src/rust_tesseract.rs`, `src/lib.rs`).

The Rust code is shallowly embedded: pure string manipulation becomes Lean
functions over `String` and `List Char`; the interaction with the outside
world (the process-wide engine path, child-process spawning, the filesystem,
the captured output streams) is abstracted into an explicit environment
record `Env` that is threaded through `run_tesseract`.  Calls that panic in
Rust (`unwrap` on a missing artifact file or a malformed coordinate token)
are modelled by `Except RunError`.  Observable side effects (spawning a
child process, writing the converted PNG, logging a validation error) are
recorded in an event trace so that claims about what is or is not spawned
can be stated.
-/

namespace RsTesseract

/-- Recognized image formats, from the `FORMATS` constant of the source. -/
def FORMATS : List String :=
  ["JPEG", "JPG", "PNG", "PBM", "PGM", "PPM", "TIFF", "BMP", "GIF", "WEBP"]

/-- Model of Rust `str::to_uppercase` as a character-wise map (the formats
involved are plain ASCII, where the Rust and Lean case maps agree). -/
def rustToUpper (s : String) : String := String.mk (s.data.map Char.toUpper)

/-- Model of Rust `str::to_lowercase` as a character-wise map. -/
def rustToLower (s : String) : String := String.mk (s.data.map Char.toLower)

/-- Split a character list at every occurrence of the separator; the model
of Rust `str::split` with a single-character pattern (every `split` in the
source uses a single-character pattern).  Like Rust, an empty input yields
one empty piece and adjacent separators yield empty pieces. -/
def splitChar (sep : Char) : List Char → List (List Char)
  | [] => [[]]
  | c :: cs =>
    let r := splitChar sep cs
    if c == sep then [] :: r
    else
      match r with
      | [] => [[c]]
      | h :: t => (c :: h) :: t

/-- Rust `s.split(sep)` collected to a list of strings. -/
def rustSplit (s : String) (sep : Char) : List String :=
  (splitChar sep s.data).map String.mk

/-- Join pieces with a separator, Rust `Vec::join`. -/
def joinWith (sep : String) : List String → String
  | [] => ""
  | [x] => x
  | x :: y :: xs => x ++ sep ++ joinWith sep (y :: xs)

/-- Shape of an `ndarray::Array3` of bytes.  The pipeline only ever
observes whether the array has any element (`is_empty_ndarray` iterates the
elements) and its dimensions, so the model records the three dimensions. -/
structure Array3 where
  height : Nat
  width : Nat
  channels : Nat
deriving DecidableEq

/-- The `Image` struct of the source: a path string and a pixel buffer. -/
structure Image where
  path : String
  ndarray : Array3
deriving DecidableEq

/-- The source function `Image::is_empty_ndarray`: true iff the buffer holds no
element, i.e. the product of the dimensions is zero. -/
def Image.is_empty_ndarray (img : Image) : Bool :=
  img.ndarray.height * img.ndarray.width * img.ndarray.channels == 0

/-- The source function `check_image_format`: split the path on every dot, take
the last piece, and accept iff its lowercase or uppercase form is in
`FORMATS`.  (`split(".")` on a dot-free path yields the whole path as the
single, hence last, piece.) -/
def check_image_format (img : Image) : Bool :=
  let splits := rustSplit img.path '.'
  let format := splits.getLastD ""
  let uppercase_format := rustToUpper format
  let format2 := rustToLower format
  FORMATS.contains format2 || FORMATS.contains uppercase_format

/-- The `Args` struct of the source (configuration of one invocation).
Rust static string-slice fields become `String`; the `HashMap` of engine flags
becomes an association list looked up by first match. -/
structure Args where
  out_filename : String
  lang : String
  config : List (String × String)
  dpi : Int
  boxfile : Bool
deriving DecidableEq

/-- `Args::new` of the source: the default configuration. -/
def Args.new : Args :=
  { out_filename := "out", lang := "eng", config := [], dpi := 150, boxfile := false }

/-- First-match lookup in the association-list model of the `HashMap`
configuration (`HashMap` keys are unique, so first match is the match). -/
def cfgFind (config : List (String × String)) (k : String) : Option String :=
  match config with
  | [] => none
  | p :: rest => if p.1 == k then some p.2 else cfgFind rest k

/-- The `ModelOutput` struct of the source.  `output_bytes` is the byte
vector of the artifact, `output_dict` the multimap in insertion order, and
`output_dataframe` the list of named integer columns (a `polars` `Series`
is modelled by its name and its integer contents). -/
structure ModelOutput where
  output_info : String
  output_bytes : List UInt8
  output_dict : List (String × String)
  output_string : String
  output_dataframe : List (String × List Int)
deriving DecidableEq

/-- `ModelOutput::new` of the source: the all-empty result. -/
def ModelOutput.new : ModelOutput :=
  { output_info := "", output_bytes := [], output_dict := [],
    output_string := "", output_dataframe := [] }

/-- Validation-failure kinds logged before the engine invocation. -/
inductive ErrKind
  | imageNotFound
  | imageFormat
deriving DecidableEq

/-- A Rust panic inside `run_tesseract`: reading a missing artifact file
(`read_output_file`) or a malformed box coordinate (`parse::<i32>`). -/
inductive RunError
  | artifactMissing (filename : String)
  | coordParse (token : String)
deriving DecidableEq

/-- Observable side effects of one call, in order: a successful child
process spawned by the installed-check probe, the engine invocation spawned
with its full argument list, the converted-buffer PNG written to disk, and
a logged validation error. -/
inductive Event
  | probeSpawn
  | engineSpawn (argv : List String)
  | savePng (path : String)
  | logError (e : ErrKind)
deriving DecidableEq

instance {ε α : Type} [DecidableEq ε] [DecidableEq α] : DecidableEq (Except ε α) := fun a b =>
  match a, b with
  | Except.error e, Except.error f => decidable_of_iff (e = f) (by simp)
  | Except.error _, Except.ok _ => isFalse (by simp)
  | Except.ok _, Except.error _ => isFalse (by simp)
  | Except.ok x, Except.ok y => decidable_of_iff (x = y) (by simp)

/-- The outside world of one call: the process-wide engine path registry,
whether spawning the engine executable succeeds, whether saving the
converted buffer succeeds, the current working directory, the captured
stdout/stderr of the child, and the filesystem contents after the child
exits (`none` means the file does not exist). -/
structure Env where
  tessPath : Option String
  spawnOk : Bool
  saveOk : Bool
  workingDir : String
  stdoutStr : String
  stderrStr : String
  files : String → Option String

/-- The source function `check_if_installed`: returns false without spawning when
no path is registered; otherwise attempts to spawn the registered
executable, and returns true iff that spawn succeeds.  The returned trace
records the successfully spawned probe child process. -/
def check_if_installed (env : Env) : List Event × Bool :=
  match env.tessPath with
  | some _ => (if env.spawnOk then [Event.probeSpawn] else [], env.spawnOk)
  | none => ([], false)

/-- The source function `read_output_file`, as a lookup in the environment
filesystem; the Rust `expect` on a missing file is handled at the call
site as `RunError.artifactMissing`. -/
def read_output_file (env : Env) (filename : String) : Option String :=
  env.files filename

/-- Drop one trailing carriage return, as Rust `str::lines` does. -/
def stripTrailingCR (l : List Char) : List Char :=
  match l.getLast? with
  | some c => if c == '\r' then l.dropLast else l
  | none => l

/-- Rust `str::lines`: split on newline, drop a final empty piece, and
strip one trailing carriage return from each line. -/
def rustLines (s : String) : List String :=
  let parts := splitChar '\n' s.data
  let parts := if parts.getLast? == some [] then parts.dropLast else parts
  parts.map (fun l => String.mk (stripTrailingCR l))

/-- The stream-joining loop of the source: every line of the chosen stream
is appended after a newline onto an initially empty string. -/
def joinedLines (s : String) : String :=
  (rustLines s).foldl (fun acc l => acc ++ "\n" ++ l) ""

/-- The diagnostic string of the source: stderr is used when stdout is
empty, else stdout, joined line by line. -/
def captureInfo (env : Env) : String :=
  if env.stdoutStr == "" then joinedLines env.stderrStr else joinedLines env.stdoutStr

/-- Does `pat` occur at the head of `s`? -/
def strMatchesAt : List Char → List Char → Bool
  | [], _ => true
  | _ :: _, [] => false
  | p :: ps, c :: cs => p == c && strMatchesAt ps cs

/-- Does `pat` occur anywhere in `s`?  Model of Rust `str::contains` at
character granularity. -/
def strHasPat : List Char → List Char → Bool
  | pat, [] => pat.isEmpty
  | pat, c :: cs => strMatchesAt pat (c :: cs) || strHasPat pat cs

/-- Rust `s.contains(pat)`. -/
def strContains (s pat : String) : Bool := strHasPat pat.data s.data

/-- Rust `str::split_once(" ")` restricted to its uses in the source: the
part before the first space, and everything after it. -/
def splitOnceSpace (l : String) : String × String :=
  match rustSplit l ' ' with
  | [] => ("", "")
  | first :: rest => (first, joinWith " " rest)

/-- Rust `str::parse::<i32>`: an optional sign, then one or more ASCII
digits, rejecting anything else and any value outside the i32 range. -/
def parseI32 (s : String) : Option Int :=
  let digitsVal := fun (ds : List Char) =>
    ds.foldl (fun a c => a * 10 + (c.toNat - 48)) 0
  let core := fun (ds : List Char) (sign : Int) =>
    if ds.isEmpty then none
    else if ds.all Char.isDigit then
      let v : Int := sign * (digitsVal ds : Nat)
      if -2147483648 ≤ v ∧ v ≤ 2147483647 then some v else none
    else none
  match s.data with
  | '+' :: ds => core ds 1
  | '-' :: ds => core ds (-1)
  | ds => core ds 1

/-- Parse the coordinate tokens of one box line; the first token that is
not an integer aborts the whole call, as the `unwrap` in the source does. -/
def parseCoords (toks : List String) : Except RunError (List Int) :=
  match toks with
  | [] => Except.ok []
  | t :: rest =>
    match parseI32 t with
    | none => Except.error (RunError.coordParse t)
    | some v =>
      match parseCoords rest with
      | Except.error e => Except.error e
      | Except.ok vs => Except.ok (v :: vs)

/-- The box-file parsing loop of the source: every line containing a space
is split at its first space into key and rest; the pair goes into the
multimap, and the rest, split on spaces and parsed as integers, becomes a
column named by the key.  Lines without a space are skipped. -/
def parseBoxLines : List String → Except RunError (List (String × String) × List (String × List Int))
  | [] => Except.ok ([], [])
  | line :: rest =>
    if strContains line " " then
      let tuple := splitOnceSpace line
      match parseCoords (rustSplit tuple.2 ' ') with
      | Except.error e => Except.error e
      | Except.ok vs =>
        match parseBoxLines rest with
        | Except.error e => Except.error e
        | Except.ok pr => Except.ok ((tuple.1, tuple.2) :: pr.1, (tuple.1, vs) :: pr.2)
    else parseBoxLines rest

/-- Rust `String::replace(a-quote, empty)` as used on the image path:
remove every double-quote character (codepoint 34). -/
def removeQuotes (s : String) : String :=
  String.mk (s.data.filter (fun c => !(c == Char.ofNat 34)))

/-- UTF-8 bytes of a string, Rust `str::as_bytes`. -/
def strBytes (s : String) : List UInt8 :=
  s.data.foldr (fun c acc => String.utf8EncodeChar c ++ acc) []

/-- The argument list built by `run_tesseract` (identical on the windows
and non-windows branches of the source): image argument, output stem,
language, dpi, psm, oem, the `-c` flag and the box-mode token, with psm,
oem and the `-c` value taken from the configuration map when present. -/
def buildArgv (image_arg : String) (args : Args) : List String :=
  let boxarg := if args.boxfile then "makebox" else ""
  let tesstable_arg :=
    if (cfgFind args.config "-c").isSome then (cfgFind args.config "-c").getD ""
    else "tessedit_create_tsv=0"
  let psm := if (cfgFind args.config "psm").isSome then (cfgFind args.config "psm").getD "" else "3"
  let oem := if (cfgFind args.config "oem").isSome then (cfgFind args.config "oem").getD "" else "3"
  [image_arg, args.out_filename, "-l", args.lang, "--dpi", toString args.dpi,
   "--psm", psm, "--oem", oem, "-c", tesstable_arg, boxarg]

/-- The artifact filename computed by `run_tesseract` after the child
exits: the stem gets `.txt` (text mode) or `.box` (box mode) appended
unless the stem already CONTAINS that extension as a substring. -/
def outFileName (args : Args) : String :=
  if !args.boxfile then
    if !(strContains args.out_filename ".txt") then args.out_filename ++ ".txt"
    else args.out_filename
  else
    if !(strContains args.out_filename ".box") then args.out_filename ++ ".box"
    else args.out_filename

/-- The tail of `run_tesseract` once the image argument is resolved: spawn
the engine with the built arguments, join the captured streams, read the
artifact file (missing file aborts the call), and in box mode parse it
line by line (a malformed coordinate aborts the call). -/
def finishRun (env : Env) (args : Args) (ev : List Event) (image_arg : String) :
    List Event × Except RunError (Option ModelOutput) :=
  let argv := buildArgv image_arg args
  let ev := ev ++ [Event.engineSpawn argv]
  let str_res := captureInfo env
  let out_f := outFileName args
  match read_output_file env out_f with
  | none => (ev, Except.error (RunError.artifactMissing out_f))
  | some file_output =>
    match (if args.boxfile then parseBoxLines (rustLines file_output)
           else Except.ok ([], [])) with
    | Except.error e => (ev, Except.error e)
    | Except.ok pr =>
      (ev, Except.ok (some
        { output_info := str_res,
          output_bytes := strBytes file_output,
          output_dict := pr.1,
          output_string := file_output,
          output_dataframe := pr.2 }))

/-- The source function `run_tesseract`: probe the installed engine (returning
`none` when the probe fails), resolve the image argument (materializing a
non-empty buffer as `ndarray_converted.png` when the path is empty,
failing with `ImageNotFound` when both are empty, and failing with
`ImageFormat` when the path has an unrecognized format), then run the
engine and parse the artifact. -/
def run_tesseract (env : Env) (image : Image) (args : Args) :
    List Event × Except RunError (Option ModelOutput) :=
  let probe := check_if_installed env
  if probe.2 = false then (probe.1, Except.ok none)
  else if image.path.length == 0 && !image.is_empty_ndarray then
    let new_path := joinWith "/" [env.workingDir, "ndarray_converted.png"]
    if env.saveOk then
      finishRun env args (probe.1 ++ [Event.savePng new_path]) new_path
    else
      finishRun env args probe.1 ""
  else if image.path.length == 0 && image.is_empty_ndarray then
    (probe.1 ++ [Event.logError ErrKind.imageNotFound], Except.ok none)
  else
    if check_image_format image = false then
      (probe.1 ++ [Event.logError ErrKind.imageFormat], Except.ok none)
    else
      finishRun env args probe.1 (removeQuotes image.path)

/-- The source function `image_to_string` facade: an empty result when the
pipeline short-circuits, the parsed result otherwise; a Rust panic inside
the pipeline propagates. -/
def image_to_string (env : Env) (image : Image) (args : Args) : Except RunError ModelOutput :=
  match (run_tesseract env image args).2 with
  | Except.error e => Except.error e
  | Except.ok (some r0) => Except.ok r0
  | Except.ok none => Except.ok ModelOutput.new

/-- The source function `image_to_boxes` facade; its body is identical to
`image_to_string` and runs with the caller-supplied flags. -/
def image_to_boxes (env : Env) (image : Image) (args : Args) : Except RunError ModelOutput :=
  match (run_tesseract env image args).2 with
  | Except.error e => Except.error e
  | Except.ok (some r0) => Except.ok r0
  | Except.ok none => Except.ok ModelOutput.new

/-- The source function `image_to_data`: a text pass, a box pass with the box
flag forced on, a merge of the two, a third (unparsed) invocation with
`tessedit_create_tsv=1` forced into the configuration map, and finally an
empty result when the format check on the descriptor fails. -/
def image_to_data (env : Env) (image : Image) (args : Args) : Except RunError ModelOutput :=
  match image_to_string env image args with
  | Except.error e => Except.error e
  | Except.ok str_out =>
    match image_to_boxes env image { args with boxfile := true } with
    | Except.error e => Except.error e
    | Except.ok box_out =>
      let out : ModelOutput :=
        { output_info := str_out.output_info,
          output_bytes := str_out.output_bytes,
          output_dict := box_out.output_dict,
          output_string := str_out.output_string,
          output_dataframe := box_out.output_dataframe }
      match (run_tesseract env image
              { args with config := ("-c", "tessedit_create_tsv=1") :: args.config }).2 with
      | Except.error e => Except.error e
      | Except.ok _ =>
        if check_image_format image then Except.ok out else Except.ok ModelOutput.new

/-- The source function `get_tesseract_version`: empty when the installed probe
fails, otherwise the joined stdout/stderr of the version invocation. -/
def get_tesseract_version (env : Env) : String :=
  let probe := check_if_installed env
  if probe.2 = false then ""
  else
    match env.tessPath with
    | some _ => captureInfo env
    | none => ""

/-! Helper lemmas. -/

theorem char_toNat_ofNat_of_lt (n : Nat) (h : n < 55296) : (Char.ofNat n).toNat = n := by
  have hv : Nat.isValidChar n := Or.inl h
  unfold Char.ofNat
  rw [dif_pos hv]
  rfl

theorem toLower_ne_upper (c L : Char) (h65 : 65 ≤ L.toNat) (h90 : L.toNat ≤ 90) :
    Char.toLower c ≠ L := by
  simp only [Char.toLower]
  split
  next hc =>
    intro he
    have h2 : (Char.ofNat (c.toNat + 32)).toNat = c.toNat + 32 :=
      char_toNat_ofNat_of_lt _ (by omega)
    rw [he] at h2
    omega
  next hc =>
    intro he
    subst he
    exact hc ⟨h65, h90⟩

theorem map_toLower_ne (l : List Char) (L : Char) (rest : List Char)
    (h65 : 65 ≤ L.toNat) (h90 : L.toNat ≤ 90) :
    l.map Char.toLower ≠ L :: rest := by
  cases l with
  | nil => simp
  | cons c cs =>
    simp only [List.map_cons, ne_eq, List.cons.injEq, not_and]
    intro he
    exact absurd he (toLower_ne_upper c L h65 h90)

theorem rustToLower_ne (s t : String) (L : Char) (rest : List Char)
    (ht : t.data = L :: rest) (h65 : 65 ≤ L.toNat) (h90 : L.toNat ≤ 90) :
    rustToLower s ≠ t := by
  intro h
  have hd : s.data.map Char.toLower = L :: rest := by
    rw [← ht]
    exact congrArg String.data h
  exact map_toLower_ne _ _ _ h65 h90 hd

theorem rustToLower_not_mem_FORMATS (s : String) :
    FORMATS.contains (rustToLower s) = false := by
  rw [Bool.eq_false_iff]
  intro hc
  have hm : rustToLower s ∈ FORMATS := by
    simpa using hc
  simp only [FORMATS, List.mem_cons, List.not_mem_nil, or_false] at hm
  rcases hm with h | h | h | h | h | h | h | h | h | h
  · exact rustToLower_ne s _ 'J' ['P', 'E', 'G'] (by decide) (by decide) (by decide) h
  · exact rustToLower_ne s _ 'J' ['P', 'G'] (by decide) (by decide) (by decide) h
  · exact rustToLower_ne s _ 'P' ['N', 'G'] (by decide) (by decide) (by decide) h
  · exact rustToLower_ne s _ 'P' ['B', 'M'] (by decide) (by decide) (by decide) h
  · exact rustToLower_ne s _ 'P' ['G', 'M'] (by decide) (by decide) (by decide) h
  · exact rustToLower_ne s _ 'P' ['P', 'M'] (by decide) (by decide) (by decide) h
  · exact rustToLower_ne s _ 'T' ['I', 'F', 'F'] (by decide) (by decide) (by decide) h
  · exact rustToLower_ne s _ 'B' ['M', 'P'] (by decide) (by decide) (by decide) h
  · exact rustToLower_ne s _ 'G' ['I', 'F'] (by decide) (by decide) (by decide) h
  · exact rustToLower_ne s _ 'W' ['E', 'B', 'P'] (by decide) (by decide) (by decide) h

/-! Claim C1. -/

/-- C1 (confirmed): for every configuration, the argument list passed to
the engine process is exactly, in order: the resolved image argument, the
output stem, the language flag and language, the dpi flag and the dpi in
decimal, the psm flag and value, the oem flag and value, the dash-c flag
and the tesstable flag, and finally the box-mode token; psm, oem and the
tesstable flag come from the configuration map under their keys when
present, else are 3, 3 and tessedit_create_tsv=0; the final token is
makebox in box mode and the empty token otherwise. -/
theorem c1_invocation_argument_order (image_arg : String) (args : Args) :
    buildArgv image_arg args =
      [image_arg, args.out_filename, "-l", args.lang, "--dpi", toString args.dpi,
       "--psm", (cfgFind args.config "psm").getD "3",
       "--oem", (cfgFind args.config "oem").getD "3",
       "-c", (cfgFind args.config "-c").getD "tessedit_create_tsv=0",
       if args.boxfile then "makebox" else ""] := by
  rcases h1 : cfgFind args.config "-c" with _ | v1 <;>
    rcases h2 : cfgFind args.config "psm" with _ | v2 <;>
      rcases h3 : cfgFind args.config "oem" with _ | v3 <;>
        simp [buildArgv, h1, h2, h3]

/-! Claim C2. -/

/-- C2 (counterexample): the path png contains no dot, so it has no
extension in the sense of the claim and format validation should return
false; the code takes the last dot-separated piece of the path, which for
a dot-free path is the whole path, and accepts it. -/
theorem c2_counterexample :
    strContains "png" "." = false ∧
    check_image_format { path := "png", ndarray := ⟨0, 0, 0⟩ } = true := by decide

/-- C2 (amended): format validation returns true exactly when the last
dot-separated piece of the path — the whole path when it contains no dot —
uppercased, is in the recognized set; in particular a dot-free path whose
text case-insensitively matches a format name is accepted rather than
rejected. -/
theorem c2_format_validation (img : Image) :
    check_image_format img =
      FORMATS.contains (rustToUpper ((rustSplit img.path '.').getLastD "")) := by
  have h := rustToLower_not_mem_FORMATS ((rustSplit img.path '.').getLastD "")
  simp only [check_image_format]
  rw [h, Bool.false_or]

/-! Claim C4. -/

/-- C4 (counterexample): with the engine installed and both artifact files
present, recognizeBoxes on a configuration whose box-mode flag is false
differs from recognizeBoxes on the same configuration with the flag set:
the pipeline is not forced into box mode. -/
def envC4 : Env :=
  { tessPath := some "tesseract", spawnOk := true, saveOk := true, workingDir := "wd",
    stdoutStr := "", stderrStr := "",
    files := fun f => if f == "out.txt" then some "hello"
      else if f == "out.box" then some "A 1 2 3 4" else none }

def imgC4 : Image := { path := "a.png", ndarray := ⟨0, 0, 0⟩ }

/-- C4 (counterexample): recognizeBoxes with the caller-supplied default
configuration (box flag false) returns the text-mode result, not the
box-mode result it would return were box mode forced. -/
theorem c4_counterexample :
    image_to_boxes envC4 imgC4 Args.new ≠
      image_to_boxes envC4 imgC4 { Args.new with boxfile := true } := by decide

/-- C4 (amended): recognizeBoxes runs the pipeline with the box-mode flag
exactly as the caller supplied it — its behavior is identical to
recognizeText on the same configuration; box mode is forced only inside
recognizeTable, which sets the flag before calling it. -/
theorem c4_boxes_uses_caller_flag (env : Env) (image : Image) (args : Args) :
    image_to_boxes env image args = image_to_string env image args := rfl

/-! Substring occurrence, related to its mathematical characterization. -/

theorem strMatchesAt_iff (pat : List Char) :
    ∀ s, strMatchesAt pat s = true ↔ ∃ t, s = pat ++ t := by
  induction pat with
  | nil => intro s; simp [strMatchesAt]
  | cons p ps ih =>
    intro s
    cases s with
    | nil => simp [strMatchesAt]
    | cons c cs =>
      simp only [strMatchesAt, Bool.and_eq_true, beq_iff_eq, ih cs,
        List.cons_append, List.cons.injEq]
      constructor
      · rintro ⟨rfl, t, rfl⟩
        exact ⟨t, rfl, rfl⟩
      · rintro ⟨t, rfl, rfl⟩
        exact ⟨rfl, t, rfl⟩

theorem strHasPat_iff (pat : List Char) :
    ∀ s, strHasPat pat s = true ↔ ∃ a b, s = a ++ pat ++ b := by
  intro s
  induction s with
  | nil =>
    simp only [strHasPat, List.isEmpty_iff]
    constructor
    · rintro rfl
      exact ⟨[], [], rfl⟩
    · rintro ⟨a, b, h⟩
      have h2 := h.symm
      simp only [List.append_eq_nil] at h2
      exact h2.1.2
  | cons c cs ih =>
    simp only [strHasPat, Bool.or_eq_true, strMatchesAt_iff, ih]
    constructor
    · rintro (⟨t, ht⟩ | ⟨a, b, hab⟩)
      · exact ⟨[], t, by simpa using ht⟩
      · exact ⟨c :: a, b, by simp [hab]⟩
    · rintro ⟨a, b, h⟩
      cases a with
      | nil =>
        left
        exact ⟨b, by simpa using h⟩
      | cons a0 as =>
        right
        simp only [List.cons_append, List.append_assoc, List.cons.injEq] at h
        exact ⟨as, b, by simpa [List.append_assoc] using h.2⟩

/-! Claim C7. -/

/-- C7 (counterexample): the stem out.txt.bak does not end with .txt, so
the claim demands that .txt be appended; but the stem CONTAINS .txt as a
substring, so the code leaves the filename unchanged. -/
theorem c7_counterexample :
    (∀ a : List Char, "out.txt.bak".data ≠ a ++ ".txt".data) ∧
    outFileName { Args.new with out_filename := "out.txt.bak" } = "out.txt.bak" := by
  constructor
  · intro a h
    have hl : a.length = 7 := by
      have := congrArg List.length h
      simp at this
      omega
    have h2 := congrArg (List.drop a.length) h
    rw [List.drop_left] at h2
    rw [hl] at h2
    exact absurd h2 (by decide)
  · decide

/-- C7 (amended): the artifact read after the child exits is named
stem.txt in text mode and stem.box in box mode, with the extension
appended if and only if the stem does not already CONTAIN that extension
as a substring (not: end with it); otherwise the stem is used unchanged. -/
theorem c7_artifact_name (args : Args) :
    ((∃ a b, args.out_filename.data =
        a ++ (if args.boxfile then ".box" else ".txt").data ++ b) →
      outFileName args = args.out_filename) ∧
    ((¬ ∃ a b, args.out_filename.data =
        a ++ (if args.boxfile then ".box" else ".txt").data ++ b) →
      outFileName args = args.out_filename ++ (if args.boxfile then ".box" else ".txt")) := by
  cases hb : args.boxfile
  · constructor
    · intro hex
      have h : strContains args.out_filename ".txt" = true := by
        rw [strContains, strHasPat_iff]
        simpa [hb] using hex
      simp [outFileName, hb, h]
    · intro hex
      have h : strContains args.out_filename ".txt" = false := by
        rw [Bool.eq_false_iff]
        intro hc
        exact hex (by simpa [hb] using (strHasPat_iff _ _).mp hc)
      simp [outFileName, hb, h]
  · constructor
    · intro hex
      have h : strContains args.out_filename ".box" = true := by
        rw [strContains, strHasPat_iff]
        simpa [hb] using hex
      simp [outFileName, hb, h]
    · intro hex
      have h : strContains args.out_filename ".box" = false := by
        rw [Bool.eq_false_iff]
        intro hc
        exact hex (by simpa [hb] using (strHasPat_iff _ _).mp hc)
      simp [outFileName, hb, h]

/-- C7 (witness): the default stem out does not contain .txt, and the
artifact name is out.txt. -/
theorem c7_witness :
    strHasPat ".txt".data "out".data = false ∧
    outFileName Args.new = "out" ++ ".txt" :=
  ⟨by decide,
   (c7_artifact_name Args.new).2
     (fun hex => absurd ((strHasPat_iff _ _).mpr hex) (by decide))⟩

/-! Short-circuit lemmas about the pipeline. -/

theorem length_beq_zero_false (s : String) (h : s ≠ "") : (s.length == 0) = false := by
  have hd : s.data ≠ [] := by
    intro h0
    apply h
    cases s with
    | mk d =>
      cases h0
      rfl
  have hlen : s.length ≠ 0 := by
    intro h0
    exact hd (List.length_eq_zero.mp h0)
  simpa using hlen

theorem run_snd_none_of_not_installed (env : Env) (img : Image) (args : Args)
    (h : (check_if_installed env).2 = false) :
    (run_tesseract env img args).2 = Except.ok none := by
  simp [run_tesseract, h]

theorem run_snd_none_of_empty (env : Env) (img : Image) (args : Args)
    (hp : img.path = "") (he : img.is_empty_ndarray = true) :
    (run_tesseract env img args).2 = Except.ok none := by
  by_cases hi : (check_if_installed env).2 = false
  · simp [run_tesseract, hi]
  · simp [run_tesseract, hi, hp, he]

theorem run_snd_none_of_bad_format (env : Env) (img : Image) (args : Args)
    (hp : img.path ≠ "") (hf : check_image_format img = false) :
    (run_tesseract env img args).2 = Except.ok none := by
  by_cases hi : (check_if_installed env).2 = false
  · simp [run_tesseract, hi]
  · simp [run_tesseract, hi, length_beq_zero_false img.path hp, hf]

/-! Claim C8. -/

/-- C8 (confirmed): whenever the pipeline fails for one of the three
validation reasons — installed-engine probe failed, image not found (empty
path and empty buffer), or unrecognized format on a non-empty path —
recognizeText and recognizeBoxes return the all-empty but well-formed
structured result, never an absent value, and when the probe fails the
version query likewise returns the empty string. -/
theorem c8_failures_yield_empty_result (env : Env) (img : Image) (args : Args)
    (h : (check_if_installed env).2 = false ∨
         (img.path = "" ∧ img.is_empty_ndarray = true) ∨
         (img.path ≠ "" ∧ check_image_format img = false)) :
    image_to_string env img args = Except.ok ModelOutput.new ∧
    image_to_boxes env img args = Except.ok ModelOutput.new ∧
    ((check_if_installed env).2 = false → get_tesseract_version env = "") := by
  have hrun : (run_tesseract env img args).2 = Except.ok none := by
    rcases h with h | ⟨h1, h2⟩ | ⟨h1, h2⟩
    · exact run_snd_none_of_not_installed _ _ _ h
    · exact run_snd_none_of_empty _ _ _ h1 h2
    · exact run_snd_none_of_bad_format _ _ _ h1 h2
  refine ⟨?_, ?_, ?_⟩
  · unfold image_to_string
    rw [hrun]
  · unfold image_to_boxes
    rw [hrun]
  · intro hi
    simp [get_tesseract_version, hi]

/-- C8 (witness): with no engine path registered the probe fails, and all
three public operations return empty-but-valid results. -/
def envNI : Env :=
  { tessPath := none, spawnOk := true, saveOk := true, workingDir := "wd",
    stdoutStr := "", stderrStr := "", files := fun _ => none }

def imgAny : Image := { path := "b.png", ndarray := ⟨0, 0, 0⟩ }

/-- C8 (witness): the probe fails on the unregistered engine and every
facade operation yields the empty structured result. -/
theorem c8_witness :
    (check_if_installed envNI).2 = false ∧
    (image_to_string envNI imgAny Args.new = Except.ok ModelOutput.new ∧
     image_to_boxes envNI imgAny Args.new = Except.ok ModelOutput.new ∧
     ((check_if_installed envNI).2 = false → get_tesseract_version envNI = "")) :=
  ⟨by decide, c8_failures_yield_empty_result envNI imgAny Args.new (Or.inl (by decide))⟩

/-! Claim C6. -/

theorem engineSpawn_not_in_probe (env : Env) (a : List String) :
    Event.engineSpawn a ∉ (check_if_installed env).1 := by
  unfold check_if_installed
  cases env.tessPath
  · simp
  · cases henv : env.spawnOk <;> simp

/-- C6 (counterexample): with the engine installed, a descriptor with
empty path and empty buffer makes the call fail with ImageNotFound — but
only after the installed-check probe has already spawned (successfully) a
child process, recorded first in the trace; so the failure does not happen
before ANY child process is spawned, only before the engine invocation. -/
def envC6 : Env :=
  { tessPath := some "tesseract", spawnOk := true, saveOk := true, workingDir := "wd",
    stdoutStr := "", stderrStr := "", files := fun _ => none }

def imgNone : Image := { path := "", ndarray := ⟨0, 0, 0⟩ }

/-- C6 (counterexample): the trace of the failing call starts with the
probe spawn, a child process spawned before the ImageNotFound failure is
logged. -/
theorem c6_counterexample :
    (run_tesseract envC6 imgNone Args.new).1 =
      [Event.probeSpawn, Event.logError ErrKind.imageNotFound] ∧
    (run_tesseract envC6 imgNone Args.new).2 = Except.ok none := by decide

/-- C6 (amended): with the installed-engine probe passing, a descriptor
with empty path and empty buffer fails with ImageNotFound, the facade
returns the empty result, and the engine invocation itself is never
spawned — though the probe has already spawned one child process. -/
theorem c6_empty_descriptor_not_found (env : Env) (img : Image) (args : Args)
    (hpath : img.path = "") (hemp : img.is_empty_ndarray = true)
    (hinst : (check_if_installed env).2 = true) :
    run_tesseract env img args =
      ((check_if_installed env).1 ++ [Event.logError ErrKind.imageNotFound],
       Except.ok none) ∧
    image_to_string env img args = Except.ok ModelOutput.new ∧
    (∀ a, Event.engineSpawn a ∉ (run_tesseract env img args).1) := by
  have hif : ¬ ((check_if_installed env).2 = false) := by simp [hinst]
  have hrun : run_tesseract env img args =
      ((check_if_installed env).1 ++ [Event.logError ErrKind.imageNotFound],
       Except.ok none) := by
    simp [run_tesseract, hif, hpath, hemp]
  refine ⟨hrun, ?_, ?_⟩
  · unfold image_to_string
    rw [hrun]
  · intro a hmem
    rw [hrun] at hmem
    simp only [List.mem_append, List.mem_singleton] at hmem
    rcases hmem with hmem | hmem
    · exact engineSpawn_not_in_probe env a hmem
    · exact absurd hmem (by simp)

/-- C6 (witness): the amended statement holds at the concrete failing
input of the counterexample. -/
theorem c6_witness :
    imgNone.path = "" ∧ imgNone.is_empty_ndarray = true ∧
    (check_if_installed envC6).2 = true ∧
    (run_tesseract envC6 imgNone Args.new =
      ((check_if_installed envC6).1 ++ [Event.logError ErrKind.imageNotFound],
       Except.ok none) ∧
     image_to_string envC6 imgNone Args.new = Except.ok ModelOutput.new ∧
     (∀ a, Event.engineSpawn a ∉ (run_tesseract envC6 imgNone Args.new).1)) :=
  ⟨rfl, by decide, by decide,
   c6_empty_descriptor_not_found envC6 imgNone Args.new rfl (by decide) (by decide)⟩

/-! Claim C3. -/

/-- C3 (counterexample): a descriptor with empty path and a non-empty
buffer passes validation inside the pipeline (the buffer is materialized),
so the text pass succeeds and recognizes hello; but recognizeTable ends by
re-checking the image format on the original empty path, which fails, so
the merged result is discarded and the empty result returned: its plain
string is empty and differs from the text-pass string. -/
def envC3 : Env :=
  { tessPath := some "tesseract", spawnOk := true, saveOk := true, workingDir := "wd",
    stdoutStr := "", stderrStr := "",
    files := fun f => if f == "out.txt" then some "hello"
      else if f == "out.box" then some "" else none }

def imgBuf : Image := { path := "", ndarray := ⟨2, 2, 3⟩ }

/-- C3 (counterexample): recognizeTable returns the empty result while the
text pass on the same descriptor returns hello, so the merged plain string
does not equal the text-pass plain string. -/
theorem c3_counterexample :
    image_to_data envC3 imgBuf Args.new = Except.ok ModelOutput.new ∧
    image_to_string envC3 imgBuf Args.new =
      Except.ok { output_info := "", output_bytes := strBytes "hello", output_dict := [],
                  output_string := "hello", output_dataframe := [] } ∧
    ModelOutput.new.output_string ≠ "hello" := by decide

/-- C3 (amended): for every descriptor that passes the format check,
whenever recognizeTable succeeds its result merges the two passes run
against the same descriptor: its plain string, bytes and diagnostic text
equal the text-only pass result, and its mapping and numeric columns equal
the box-only pass result (the pass with the box flag forced on); when the
format check fails the merged result is discarded and the empty result is
returned instead. -/
theorem c3_data_merges_passes (env : Env) (img : Image) (args : Args)
    (hfmt : check_image_format img = true) (d : ModelOutput)
    (hd : image_to_data env img args = Except.ok d) :
    ∃ t b, image_to_string env img args = Except.ok t ∧
      image_to_boxes env img { args with boxfile := true } = Except.ok b ∧
      d.output_string = t.output_string ∧ d.output_bytes = t.output_bytes ∧
      d.output_info = t.output_info ∧
      d.output_dict = b.output_dict ∧ d.output_dataframe = b.output_dataframe := by
  unfold image_to_data at hd
  rcases hts : image_to_string env img args with e | str_out
  · rw [hts] at hd
    simp at hd
  · rw [hts] at hd
    rcases hbx : image_to_boxes env img { args with boxfile := true } with e | box_out
    · rw [hbx] at hd
      simp at hd
    · rw [hbx] at hd
      rcases htt : (run_tesseract env img
          { args with config := ("-c", "tessedit_create_tsv=1") :: args.config }).2 with e | r
      · rw [htt] at hd
        simp at hd
      · rw [htt] at hd
        simp only [hfmt, if_true, Except.ok.injEq] at hd
        subst hd
        exact ⟨str_out, box_out, rfl, rfl, rfl, rfl, rfl, rfl, rfl⟩

/-- C3 (witness): a successful merged run at a concrete descriptor. -/
def envC3W : Env :=
  { tessPath := some "tesseract", spawnOk := true, saveOk := true, workingDir := "wd",
    stdoutStr := "", stderrStr := "",
    files := fun f => if f == "out.txt" then some "hi"
      else if f == "out.box" then some "A 1 2" else none }

def imgC3W : Image := { path := "a.png", ndarray := ⟨0, 0, 0⟩ }

def dC3W : ModelOutput :=
  { output_info := "", output_bytes := strBytes "hi", output_dict := [("A", "1 2")],
    output_string := "hi", output_dataframe := [("A", [1, 2])] }

/-- C3 (witness): the amended statement instantiated at a concrete
successful run. -/
theorem c3_witness :
    check_image_format imgC3W = true ∧
    image_to_data envC3W imgC3W Args.new = Except.ok dC3W ∧
    (∃ t b, image_to_string envC3W imgC3W Args.new = Except.ok t ∧
      image_to_boxes envC3W imgC3W { Args.new with boxfile := true } = Except.ok b ∧
      dC3W.output_string = t.output_string ∧ dC3W.output_bytes = t.output_bytes ∧
      dC3W.output_info = t.output_info ∧
      dC3W.output_dict = b.output_dict ∧ dC3W.output_dataframe = b.output_dataframe) :=
  ⟨by decide, by decide,
   c3_data_merges_passes envC3W imgC3W Args.new (by decide) dC3W (by decide)⟩

/-! Claim C5. -/

theorem parseBoxLines_ok_shape (ls : List String) :
    ∀ dict df, parseBoxLines ls = Except.ok (dict, df) →
      dict = (ls.filter (fun l => strContains l " ")).map splitOnceSpace ∧
      List.Forall₂ (fun s l => s.1 = (splitOnceSpace l).1 ∧
          parseCoords (rustSplit (splitOnceSpace l).2 ' ') = Except.ok s.2)
        df (ls.filter (fun l => strContains l " ")) := by
  induction ls with
  | nil =>
    intro dict df h
    simp only [parseBoxLines, Except.ok.injEq, Prod.mk.injEq] at h
    obtain ⟨h1, h2⟩ := h
    subst h1
    subst h2
    simp
  | cons line rest ih =>
    intro dict df h
    by_cases hsp : strContains line " " = true
    · simp only [parseBoxLines, hsp, if_true] at h
      rcases hc : parseCoords (rustSplit (splitOnceSpace line).2 ' ') with e | vs
      · rw [hc] at h
        simp at h
      · rw [hc] at h
        rcases hr : parseBoxLines rest with e | pr
        · rw [hr] at h
          simp at h
        · rw [hr] at h
          simp only [Except.ok.injEq, Prod.mk.injEq] at h
          obtain ⟨h1, h2⟩ := h
          subst h1
          subst h2
          obtain ⟨ihd, ihf⟩ := ih pr.1 pr.2 (by rw [hr])
          constructor
          · simp [List.filter_cons, hsp, ihd]
          · simp only [List.filter_cons, hsp, if_true]
            exact List.Forall₂.cons ⟨rfl, hc⟩ ihf
    · rw [parseBoxLines, if_neg hsp] at h
      obtain ⟨ihd, ihf⟩ := ih dict df h
      have hspf : strContains line " " = false := by
        simpa using hsp
      constructor
      · simp [List.filter_cons, hspf, ihd]
      · simpa [List.filter_cons, hspf] using ihf

/-- C5 (confirmed): in box mode, each line containing at least one space
is split at its first space into character and rest; the mapping gains,
in order, the pair of character and the literal rest for each such line,
and one numeric column per such line is created, named by the character
and holding the integers parsed from rest split on spaces; in particular
the two-line example of the claim yields exactly the claimed mapping and
columns. -/
theorem c5_box_mode_parsing :
    (∀ ls dict df, parseBoxLines ls = Except.ok (dict, df) →
      dict = (ls.filter (fun l => strContains l " ")).map splitOnceSpace ∧
      List.Forall₂ (fun s l => s.1 = (splitOnceSpace l).1 ∧
          parseCoords (rustSplit (splitOnceSpace l).2 ' ') = Except.ok s.2)
        df (ls.filter (fun l => strContains l " "))) ∧
    parseBoxLines (rustLines "A 10 20 30 40\nB 11 21 31 41") =
      Except.ok ([("A", "10 20 30 40"), ("B", "11 21 31 41")],
                 [("A", [10, 20, 30, 40]), ("B", [11, 21, 31, 41])]) :=
  ⟨fun ls dict df h => parseBoxLines_ok_shape ls dict df h, by decide⟩

/-- C5 (witness): the general half of the claim applied to the concrete
two-line artifact of the claim. -/
theorem c5_witness :
    parseBoxLines ["A 10 20 30 40", "B 11 21 31 41"] =
      Except.ok ([("A", "10 20 30 40"), ("B", "11 21 31 41")],
                 [("A", [10, 20, 30, 40]), ("B", [11, 21, 31, 41])]) ∧
    ([("A", "10 20 30 40"), ("B", "11 21 31 41")] =
        ((["A 10 20 30 40", "B 11 21 31 41"].filter
            (fun l => strContains l " ")).map splitOnceSpace) ∧
      List.Forall₂ (fun s l => s.1 = (splitOnceSpace l).1 ∧
          parseCoords (rustSplit (splitOnceSpace l).2 ' ') = Except.ok s.2)
        [("A", [10, 20, 30, 40]), ("B", [11, 21, 31, 41])]
        (["A 10 20 30 40", "B 11 21 31 41"].filter (fun l => strContains l " "))) :=
  ⟨by decide,
   c5_box_mode_parsing.1 ["A 10 20 30 40", "B 11 21 31 41"]
     [("A", "10 20 30 40"), ("B", "11 21 31 41")]
     [("A", [10, 20, 30, 40]), ("B", [11, 21, 31, 41])] (by decide)⟩

/-! Claim C9. -/

theorem parseCoords_error_of_bad (toks : List String)
    (h : ∃ t ∈ toks, parseI32 t = none) :
    ∃ t, parseCoords toks = Except.error (RunError.coordParse t) := by
  induction toks with
  | nil => simp at h
  | cons t rest ih =>
    rcases h with ⟨t0, hmem, hnone⟩
    rcases List.mem_cons.mp hmem with h0 | h0
    · subst h0
      rcases hpt : parseI32 t0 with _ | v
      · exact ⟨t0, by simp [parseCoords, hpt]⟩
      · rw [hpt] at hnone
        exact absurd hnone (by simp)
    · rcases hpt : parseI32 t with _ | v
      · exact ⟨t, by simp [parseCoords, hpt]⟩
      · obtain ⟨t1, ht1⟩ := ih ⟨t0, h0, hnone⟩
        exact ⟨t1, by simp [parseCoords, hpt, ht1]⟩

theorem parseCoords_no_artifact (toks : List String) (f : String) :
    parseCoords toks ≠ Except.error (RunError.artifactMissing f) := by
  induction toks with
  | nil => simp [parseCoords]
  | cons t rest ih =>
    rcases hpt : parseI32 t with _ | v
    · simp [parseCoords, hpt]
    · rcases hr : parseCoords rest with e | vs
      · simp only [parseCoords, hpt, hr, ne_eq, Except.error.injEq]
        intro he
        rw [he] at hr
        exact ih hr
      · simp [parseCoords, hpt, hr]

theorem parseBoxLines_error_of_bad (ls : List String)
    (h : ∃ line ∈ ls, strContains line " " = true ∧
         ∃ tok ∈ rustSplit (splitOnceSpace line).2 ' ', parseI32 tok = none) :
    ∃ t, parseBoxLines ls = Except.error (RunError.coordParse t) := by
  induction ls with
  | nil => simp at h
  | cons line rest ih =>
    rcases h with ⟨l0, hmem, hsp0, hbad⟩
    rcases List.mem_cons.mp hmem with h0 | h0
    · subst h0
      obtain ⟨t, ht⟩ := parseCoords_error_of_bad _ hbad
      exact ⟨t, by simp [parseBoxLines, hsp0, ht]⟩
    · by_cases hsp : strContains line " " = true
      · rcases hc : parseCoords (rustSplit (splitOnceSpace line).2 ' ') with e | vs
        · rcases e with f | t
          · exact absurd hc (parseCoords_no_artifact _ _)
          · exact ⟨t, by simp [parseBoxLines, hsp, hc]⟩
        · obtain ⟨t, ht⟩ := ih ⟨l0, h0, hsp0, hbad⟩
          exact ⟨t, by simp [parseBoxLines, hsp, hc, ht]⟩
      · obtain ⟨t, ht⟩ := ih ⟨l0, h0, hsp0, hbad⟩
        exact ⟨t, by simp [parseBoxLines, hsp, ht]⟩

/-- C9 (confirmed): in box mode, if the artifact contains any line with a
space whose coordinate tokens include one that does not parse as an
integer, the whole call aborts with a coordinate-parse error: no result at
all is produced, regardless of any well-formed lines in the same file. -/
theorem c9_coordinate_parse_fatal (env : Env) (img : Image) (args : Args)
    (content : String)
    (hbox : args.boxfile = true)
    (hfile : env.files (outFileName args) = some content)
    (hbad : ∃ line ∈ rustLines content, strContains line " " = true ∧
            ∃ tok ∈ rustSplit (splitOnceSpace line).2 ' ', parseI32 tok = none)
    (hpath : img.path ≠ "")
    (hfmt : check_image_format img = true)
    (hinst : (check_if_installed env).2 = true) :
    ∃ t, image_to_boxes env img args = Except.error (RunError.coordParse t) := by
  obtain ⟨t, ht⟩ := parseBoxLines_error_of_bad _ hbad
  refine ⟨t, ?_⟩
  have hif : ¬ ((check_if_installed env).2 = false) := by simp [hinst]
  have hrun : (run_tesseract env img args).2 =
      Except.error (RunError.coordParse t) := by
    simp only [run_tesseract, finishRun, read_output_file]
    simp [hif, length_beq_zero_false img.path hpath, hfmt, hfile, hbox, ht]
  unfold image_to_boxes
  rw [hrun]

/-- C9 (witness): a concrete box artifact whose second line carries the
malformed token xx aborts the call even though the first line is
well-formed. -/
def envC9 : Env :=
  { tessPath := some "tesseract", spawnOk := true, saveOk := true, workingDir := "wd",
    stdoutStr := "", stderrStr := "",
    files := fun f => if f == "out.box" then some "A 10 20 30 40\nB xx 21 31 41" else none }

def imgC9 : Image := { path := "a.png", ndarray := ⟨0, 0, 0⟩ }

/-- C9 (witness): the fatal-error statement instantiated at the concrete
malformed artifact. -/
theorem c9_witness :
    ({ Args.new with boxfile := true } : Args).boxfile = true ∧
    envC9.files (outFileName { Args.new with boxfile := true }) =
      some "A 10 20 30 40\nB xx 21 31 41" ∧
    (∃ line ∈ rustLines "A 10 20 30 40\nB xx 21 31 41", strContains line " " = true ∧
      ∃ tok ∈ rustSplit (splitOnceSpace line).2 ' ', parseI32 tok = none) ∧
    (∃ t, image_to_boxes envC9 imgC9 { Args.new with boxfile := true } =
      Except.error (RunError.coordParse t)) :=
  ⟨rfl, by decide, by decide,
   c9_coordinate_parse_fatal envC9 imgC9 { Args.new with boxfile := true }
     "A 10 20 30 40\nB xx 21 31 41" rfl (by decide) (by decide)
     (by decide) (by decide) (by decide)⟩

/-! Claim C10. -/

theorem finishRun_ok (env : Env) (args : Args) (ev : List Event) (ia : String)
    (out : ModelOutput)
    (h : (finishRun env args ev ia).2 = Except.ok (some out)) :
    out.output_bytes = strBytes out.output_string ∧
    env.files (outFileName args) = some out.output_string := by
  simp only [finishRun, read_output_file] at h
  rcases hf : env.files (outFileName args) with _ | fo
  · rw [hf] at h
    simp at h
  · rw [hf] at h
    simp only [] at h
    rcases hp : (if args.boxfile then parseBoxLines (rustLines fo)
        else Except.ok ([], [])) with e | pr
    · rw [hp] at h
      simp at h
    · rw [hp] at h
      simp only [Except.ok.injEq, Option.some.injEq] at h
      subst h
      exact ⟨rfl, rfl⟩

/-- C10 (confirmed): every successfully produced structured result, in
text mode and in box mode alike, has a raw byte payload equal to the UTF-8
bytes of its plain string, and that plain string is the entire content of
the result artifact file; in particular in box mode the plain string is
the whole box-file text, not empty. -/
theorem c10_result_invariant (env : Env) (img : Image) (args : Args)
    (out : ModelOutput)
    (h : (run_tesseract env img args).2 = Except.ok (some out)) :
    out.output_bytes = strBytes out.output_string ∧
    env.files (outFileName args) = some out.output_string := by
  simp only [run_tesseract] at h
  by_cases h1 : (check_if_installed env).2 = false
  · rw [if_pos h1] at h
    simp at h
  · rw [if_neg h1] at h
    by_cases h2 : (img.path.length == 0 && !img.is_empty_ndarray) = true
    · rw [if_pos h2] at h
      by_cases h3 : env.saveOk = true
      · rw [if_pos h3] at h
        exact finishRun_ok _ _ _ _ _ h
      · rw [if_neg h3] at h
        exact finishRun_ok _ _ _ _ _ h
    · rw [if_neg h2] at h
      by_cases h4 : (img.path.length == 0 && img.is_empty_ndarray) = true
      · rw [if_pos h4] at h
        simp at h
      · rw [if_neg h4] at h
        by_cases h5 : check_image_format img = false
        · rw [if_pos h5] at h
          simp at h
        · rw [if_neg h5] at h
          exact finishRun_ok _ _ _ _ _ h

/-- C10 (witness): the invariant at a concrete successful box-mode run:
the plain string is the whole box-file text. -/
def envC10 : Env :=
  { tessPath := some "tesseract", spawnOk := true, saveOk := true, workingDir := "wd",
    stdoutStr := "", stderrStr := "",
    files := fun f => if f == "out.box" then some "A 1 2\n" else none }

def outC10 : ModelOutput :=
  { output_info := "", output_bytes := strBytes "A 1 2\n",
    output_dict := [("A", "1 2")], output_string := "A 1 2\n",
    output_dataframe := [("A", [1, 2])] }

/-- C10 (witness): the invariant instantiated at the concrete run. -/
theorem c10_witness :
    (run_tesseract envC10 imgAny { Args.new with boxfile := true }).2 =
      Except.ok (some outC10) ∧
    (outC10.output_bytes = strBytes outC10.output_string ∧
     envC10.files (outFileName { Args.new with boxfile := true }) =
       some outC10.output_string) :=
  ⟨by decide,
   c10_result_invariant envC10 imgAny { Args.new with boxfile := true } outC10 (by decide)⟩

end RsTesseract
